import Mathlib

/-!
# Verification of the cache-backed AI-call wrapper of Smart-Task-Management

Shallow embedding of the server-side AI utility component:
`CacheManager` (cacheManager.js), the Gemini call wrapper `callGeminiAPI`
and the five feature functions of aiUtils.js
(`predictNextCategory`, `generateTaskDescription`, `generateTitleSuggestions`,
`generateTaskPrioritization`, `generateCriticalTasksReport`).

Modelling conventions:
* Machine time `Date.now()` is an explicit `now : Nat` (milliseconds) parameter.
* JS `Map` is an association list with unique keys; `Map.set` is modelled as
  replace-or-insert (cons after erasing the key), which is lookup-equivalent.
* JS truthiness of an optional string (`if (s) ...`) is `truthy`, which maps
  `null` and `""` to `none`.
* The remote HTTP call is a `RemoteResult` parameter: success with a body
  text, or one of the failure modes (network error, non-2xx which axios
  throws on, malformed response whose field access throws).
* `crypto.createHash('md5')` is modelled as an injective key-derivation
  function; only determinism of the derived cache key is relevant to the
  claims, never a concrete digest value.
* JS `Array.prototype.sort` (stable since ES2019) with a comparator `c` is
  modelled as `List.insertionSort` with the relation `c x y ≤ 0`, which is
  stable and places earlier elements first among ties, exactly like a stable
  sort with that comparator.
-/

/-- JS truthiness for an optional string: `null` and `""` are falsy. -/
def truthy : Option String → Option String
  | some s => if s = "" then none else some s
  | none => none

/-- `crypto.createHash('md5').update(str).digest('hex')` (generateHash in
aiUtils.js). Modelled as an injective function of the input string: the
claims only use that equal inputs give equal cache keys. -/
def generateHash (s : String) : String :=
  "md5:" ++ s

/-- A cache entry `{ value, expiry }` as stored by `CacheManager.set`. -/
structure CacheEntry (α : Type) where
  value : α
  expiry : Nat
deriving DecidableEq

/-- `class CacheManager { constructor(ttl) { this.cache = new Map(); this.ttl = ttl } }` -/
structure CacheManager (α : Type) where
  cache : List (String × CacheEntry α)
  ttl : Nat
deriving DecidableEq

/-- `new CacheManager(ttl)`. -/
def mkCacheManager (α : Type) (ttl : Nat) : CacheManager α :=
  ⟨[], ttl⟩

/-- `CacheManager.get(key)`: `null` if absent; if `Date.now() > expiry` the
entry is deleted and `null` is returned; otherwise the stored value.
The updated store is returned alongside (JS mutates in place). -/
def CacheManager.get (m : CacheManager α) (key : String) (now : Nat) :
    Option α × CacheManager α :=
  match m.cache.lookup key with
  | none => (none, m)
  | some entry =>
    if entry.expiry < now then
      (none, { m with cache := m.cache.filter (fun p => ¬ p.1 = key) })
    else
      (some entry.value, m)

/-- `CacheManager.set(key, value, customTtl)`: stores
`{ value, expiry: Date.now() + (customTtl || this.ttl) }`.  Note the JS `||`:
a `customTtl` of `0` (falsy) silently falls back to the default ttl. -/
def CacheManager.set (m : CacheManager α) (key : String) (value : α)
    (customTtl : Option Nat) (now : Nat) : CacheManager α :=
  let ttl := match customTtl with
    | some t => if t = 0 then m.ttl else t
    | none => m.ttl
  { m with cache := (key, ⟨value, now + ttl⟩) :: m.cache.filter (fun p => ¬ p.1 = key) }

/-- `CacheManager.delete(key)`. -/
def CacheManager.del (m : CacheManager α) (key : String) : CacheManager α :=
  { m with cache := m.cache.filter (fun p => ¬ p.1 = key) }

/-- `CacheManager.cleanup()`: removes all expired entries. -/
def CacheManager.cleanup (m : CacheManager α) (now : Nat) : CacheManager α :=
  { m with cache := m.cache.filter (fun p => ¬ p.2.expiry < now) }

-- Auxiliary lookup lemmas for the cache store.

theorem lookup_filter_ne {α : Type} (l : List (String × CacheEntry α)) (key : String) :
    (l.filter (fun p => ¬ p.1 = key)).lookup key = none := by
  induction l with
  | nil => rfl
  | cons p rest ih =>
    rcases p with ⟨k, e⟩
    by_cases h : k = key
    · simpa [List.filter_cons, h] using ih
    · have hcons : List.filter (fun p => decide ¬ p.1 = key) ((k, e) :: rest)
          = (k, e) :: List.filter (fun p => decide ¬ p.1 = key) rest := by
        simp [List.filter_cons, h]
      have hk : (key == k) = false := by
        simp only [beq_eq_false_iff_ne, ne_eq]
        intro hkk
        exact h hkk.symm
      simp only [hcons, List.lookup, hk, ih]

theorem lookup_set_self {α : Type} (m : CacheManager α) (key : String) (value : α)
    (customTtl : Option Nat) (now : Nat) :
    (m.set key value customTtl now).cache.lookup key =
      some ⟨value, now + (match customTtl with
        | some t => if t = 0 then m.ttl else t
        | none => m.ttl)⟩ := by
  simp [CacheManager.set, List.lookup]

/-- C1 helper: the store after `set key value ttl` at time `now`, with
positive custom ttl, has the entry `{value, expiry := now + ttl}` at `key`. -/
theorem lookup_set_pos {α : Type} (m : CacheManager α) (key : String) (value : α)
    (ttl now : Nat) (hpos : 0 < ttl) :
    (m.set key value (some ttl) now).cache.lookup key = some ⟨value, now + ttl⟩ := by
  rw [lookup_set_self]
  have : ¬ ttl = 0 := Nat.pos_iff_ne_zero.mp hpos
  simp [this]

/-- C1: CacheManager TTL correctness, amended to positive ttl values.
For every key, value and positive ttl: a `get` at any time at most
`ttl` milliseconds after the `set` returns the stored value; a `get`
strictly more than `ttl` milliseconds after the `set` returns `none`
and removes the entry from the internal map; and a `get` for an absent
key returns `none` normally (total function, no exception). -/
theorem cacheManager_ttl_correctness {α : Type} (m : CacheManager α) (key : String)
    (value : α) (ttl now now2 : Nat) (hpos : 0 < ttl) :
    (now2 ≤ now + ttl →
      ((m.set key value (some ttl) now).get key now2).1 = some value)
    ∧ (now + ttl < now2 →
      ((m.set key value (some ttl) now).get key now2).1 = none
      ∧ (((m.set key value (some ttl) now).get key now2).2).cache.lookup key = none)
    ∧ (m.cache.lookup key = none → m.get key now2 = (none, m)) := by
  refine ⟨?_, ?_, ?_⟩
  · intro hle
    have hlk := lookup_set_pos m key value ttl now hpos
    simp only [CacheManager.get, hlk]
    have : ¬ (now + ttl < now2) := by omega
    simp [this]
  · intro hlt
    have hlk := lookup_set_pos m key value ttl now hpos
    constructor
    · simp [CacheManager.get, hlk, hlt]
    · simp only [CacheManager.get, hlk]
      simp only [hlt, if_pos]
      exact lookup_filter_ne _ key
  · intro habs
    simp [CacheManager.get, habs]

/-- C1 counterexample to the claim as stated ("for every ttl"): with
`ttl = 0`, `customTtl || this.ttl` silently uses the default ttl
(3600000 ms), so a `get` one millisecond later — more than 0 ms after the
`set` — still returns the stored value instead of `none`. -/
theorem cacheManager_ttl_zero_counterexample :
    (((mkCacheManager String 3600000).set "k" "v" (some 0) 0).get "k" 1).1 = some "v"
    ∧ ¬ (((mkCacheManager String 3600000).set "k" "v" (some 0) 0).get "k" 1).1 = none := by
  constructor <;> decide

/-- C1 witness: the amended theorem applied at `key := "k"`, `value := "v"`,
`ttl := 100` on the empty store. -/
theorem cacheManager_ttl_correctness_witness :
    (0 : Nat) < 100
    ∧ (((mkCacheManager String 3600000).set "k" "v" (some 100) 5).get "k" 100).1 = some "v"
    ∧ (((mkCacheManager String 3600000).set "k" "v" (some 100) 5).get "k" 106).1 = none
    ∧ (mkCacheManager String 3600000).get "k" 7 = (none, mkCacheManager String 3600000) := by
  have h := cacheManager_ttl_correctness (mkCacheManager String 3600000) "k" "v" 100 5 100
    (by decide)
  have h2 := cacheManager_ttl_correctness (mkCacheManager String 3600000) "k" "v" 100 5 106
    (by decide)
  have h3 := cacheManager_ttl_correctness (mkCacheManager String 3600000) "k" "v" 100 5 7
    (by decide)
  exact ⟨by decide, h.1 (by decide), (h2.2.1 (by decide)).1, h3.2.2 (by decide)⟩

/-! ## The external-call wrapper `callGeminiAPI` (aiUtils.js) -/

/-- Outcome of the axios POST to the Gemini endpoint.  axios rejects the
promise on a network error and on a non-2xx status; a 2xx response whose
body lacks `candidates[0].content.parts[0].text` makes that field access
throw.  All three are caught by the same inner `catch (apiError)`. -/
inductive RemoteResult where
  | ok (text : String)
  | networkError
  | httpError
  | malformed
deriving DecidableEq

/-- Whether the remote call counts as failed (anything but a successfully
extracted text). -/
def RemoteResult.isFailure : RemoteResult → Bool
  | .ok _ => false
  | _ => true

/-- `callGeminiAPI(prompt, useCache, cacheTtl, fallbackFn)`.
`remote` is the outcome of the HTTP request (performed only on a cache
miss), `mediumTermCache` the wrapper-level cache and `now` the clock.
Returns the generated text together with the updated cache, or the thrown
`Error('Failed to generate content with AI')`.  Note the JS truthiness
test `if (cachedResponse)`: a cached empty string is treated as a miss. -/
def callGeminiAPI (prompt : String) (useCache : Bool) (cacheTtl : Nat)
    (fallbackFn : Option (String → String)) (remote : RemoteResult)
    (mediumTermCache : CacheManager String) (now : Nat) :
    Except String (String × CacheManager String) :=
  let cacheKey := generateHash prompt
  let checked := if useCache then mediumTermCache.get cacheKey now
    else (none, mediumTermCache)
  match truthy checked.1 with
  | some cachedResponse => .ok (cachedResponse, checked.2)
  | none =>
    match remote with
    | .ok generatedText =>
      let c2 := if useCache then checked.2.set cacheKey generatedText (some cacheTtl) now
        else checked.2
      .ok (generatedText, c2)
    | _ =>
      match fallbackFn with
      | some f => .ok (f prompt, checked.2)
      | none => .error "Failed to generate content with AI"

/-- C2: ExternalCallWrapper failure semantics.  For every prompt, when the
remote call fails (network error, non-2xx or malformed response) and the
wrapper cache misses: with a fallback function supplied the wrapper returns
exactly `fallback(promptText)`; with no fallback supplied the failure
propagates to the caller as the thrown error. -/
theorem callGeminiAPI_failure_semantics (prompt : String) (cacheTtl now : Nat)
    (f : String → String) (remote : RemoteResult) (c : CacheManager String)
    (hfail : remote.isFailure = true)
    (hmiss : truthy (c.get (generateHash prompt) now).1 = none) :
    callGeminiAPI prompt true cacheTtl (some f) remote c now
      = .ok (f prompt, (c.get (generateHash prompt) now).2)
    ∧ callGeminiAPI prompt true cacheTtl none remote c now
      = .error "Failed to generate content with AI" := by
  cases remote with
  | ok t => simp [RemoteResult.isFailure] at hfail
  | networkError => simp [callGeminiAPI, hmiss]
  | httpError => simp [callGeminiAPI, hmiss]
  | malformed => simp [callGeminiAPI, hmiss]

/-- C2 witness: a network failure on the empty cache, with the fallback
`fun s => s ++ " (offline)"`, at prompt `"p"`. -/
theorem callGeminiAPI_failure_semantics_witness :
    RemoteResult.networkError.isFailure = true
    ∧ callGeminiAPI "p" true 1000 (some (fun s => s ++ " (offline)"))
        RemoteResult.networkError (mkCacheManager String 3600000) 0
      = .ok ("p (offline)", mkCacheManager String 3600000)
    ∧ callGeminiAPI "p" true 1000 none RemoteResult.networkError
        (mkCacheManager String 3600000) 0
      = .error "Failed to generate content with AI" := by
  have h := callGeminiAPI_failure_semantics "p" 1000 0 (fun s => s ++ " (offline)")
    RemoteResult.networkError (mkCacheManager String 3600000) (by decide) (by decide)
  exact ⟨by decide, h.1, h.2⟩

/-- C10: the wrapper does not cache fallback output.  When the remote call
fails, a fallback is supplied and the medium-tier cache holds no entry for
`hash(promptText)`, the wrapper returns the fallback result with the cache
left completely unchanged, so any later `get` of that key (at any time)
still misses. -/
theorem callGeminiAPI_no_fallback_caching (prompt : String) (cacheTtl now now2 : Nat)
    (f : String → String) (remote : RemoteResult) (c : CacheManager String)
    (hfail : remote.isFailure = true)
    (habsent : c.cache.lookup (generateHash prompt) = none) :
    callGeminiAPI prompt true cacheTtl (some f) remote c now = .ok (f prompt, c)
    ∧ (c.get (generateHash prompt) now2).1 = none := by
  have hget : c.get (generateHash prompt) now = (none, c) := by
    simp [CacheManager.get, habsent]
  constructor
  · cases remote with
    | ok t => simp [RemoteResult.isFailure] at hfail
    | networkError => simp [callGeminiAPI, hget, truthy]
    | httpError => simp [callGeminiAPI, hget, truthy]
    | malformed => simp [callGeminiAPI, hget, truthy]
  · simp [CacheManager.get, habsent]

/-- C10 witness: a malformed remote response on the empty cache; the cache
after the call is still empty and a later lookup misses. -/
theorem callGeminiAPI_no_fallback_caching_witness :
    callGeminiAPI "p" true 1000 (some (fun _ => "fallback text"))
        RemoteResult.malformed (mkCacheManager String 3600000) 0
      = .ok ("fallback text", mkCacheManager String 3600000)
    ∧ ((mkCacheManager String 3600000).get (generateHash "p") 5).1 = none := by
  have h := callGeminiAPI_no_fallback_caching "p" 1000 0 5 (fun _ => "fallback text")
    RemoteResult.malformed (mkCacheManager String 3600000) (by decide) (by decide)
  exact h

/-! ## Category prediction (`predictNextCategory` in aiUtils.js) -/

/-- A task row as selected for category prediction:
`{ id, title, category, createdAt }`.  `createdAt` is a millisecond
timestamp. -/
structure PTask where
  id : String
  title : Option String
  category : Option String
  createdAt : Nat
deriving DecidableEq

/-- Helper for `uniqueFirst`: `seen` is the set of elements already kept. -/
def uniqueFirstAux (seen : List String) : List String → List String
  | [] => []
  | x :: xs => if x ∈ seen then uniqueFirstAux seen xs
    else x :: uniqueFirstAux (x :: seen) xs

/-- `[...new Set(list)]`: deduplication keeping the first occurrence of each
element, in order — JS `Set` iterates in insertion order. -/
def uniqueFirst (l : List String) : List String :=
  uniqueFirstAux [] l

theorem mem_uniqueFirstAux {a : String} : ∀ {l seen : List String},
    a ∈ uniqueFirstAux seen l → a ∈ l := by
  intro l
  induction l with
  | nil =>
    intro seen h
    simp [uniqueFirstAux] at h
  | cons x xs ih =>
    intro seen h
    rw [uniqueFirstAux] at h
    by_cases hx : x ∈ seen
    · rw [if_pos hx] at h
      exact List.mem_cons_of_mem _ (ih h)
    · rw [if_neg hx] at h
      rcases List.mem_cons.mp h with h1 | h2
      · exact h1 ▸ List.mem_cons_self _ _
      · exact List.mem_cons_of_mem _ (ih h2)

theorem mem_uniqueFirst {a : String} {l : List String} (h : a ∈ uniqueFirst l) :
    a ∈ l :=
  mem_uniqueFirstAux h

/-- `[...userTasks].sort((a, b) => new Date(b.createdAt) - new Date(a.createdAt))`:
stable sort, newest first. -/
def sortByCreatedAtDesc (l : List PTask) : List PTask :=
  List.insertionSort (fun a b => b.createdAt ≤ a.createdAt) l

/-- `categoryUsage[category] = userTasks.filter(t => t.category === category).length`
for each distinct category, in first-occurrence order. -/
def categoryUsage (userTasks : List PTask) (categories : List String) :
    List (String × Nat) :=
  categories.map (fun c =>
    (c, (userTasks.filter (fun t => decide (t.category = some c))).length))

/-- `userTasks.slice(0, 10).filter(t => t.title && t.category).map(...)`. -/
def recentPairs (userTasks : List PTask) : List (String × String) :=
  (userTasks.take 10).filterMap (fun t =>
    match truthy t.title, truthy t.category with
    | some ti, some c => some (ti, c)
    | _, _ => none)

/-- The AI prompt for category prediction.  The theorems quantify over all
outcomes of the wrapper call, so only determinism of this text in its
inputs matters; the template's exact indentation is abbreviated. -/
def categoryPrompt (taskTitle : String) (categories : List String)
    (usage : List (String × Nat)) (recents : List (String × String)) : String :=
  "As an AI assistant for a task management application, predict the most appropriate category for a new task.\n"
  ++ "New Task Title: \"" ++ taskTitle ++ "\"\n"
  ++ "Available Categories:\n"
  ++ String.intercalate "\n" (categories.map (fun c => "- " ++ c)) ++ "\n"
  ++ "Category Usage Frequency:\n"
  ++ String.intercalate "\n"
      (usage.map (fun e => e.1 ++ ": " ++ toString e.2 ++ " tasks")) ++ "\n"
  ++ "Recent Tasks:\n"
  ++ String.intercalate "\n"
      (recents.map (fun t => "Title: \"" ++ t.1 ++ "\" - Category: \"" ++ t.2 ++ "\"")) ++ "\n"
  ++ "Based on the user's task history and the new task title, predict the most appropriate category from the available categories. "
  ++ "Return ONLY the category name without any additional text, quotes, or explanation."

/-- `aiPrediction.trim().replace(/^"(.+)"$/, '$1').replace(/\.$/, '')`. -/
def cleanPrediction (s : String) : String :=
  let t := s.trim
  let t2 := if t.startsWith "\"" ∧ t.endsWith "\"" ∧ 3 ≤ t.length
    then (t.drop 1).dropRight 1 else t
  if t2.endsWith "." then t2.dropRight 1 else t2

/-- `c.toLowerCase().includes(p.toLowerCase()) || p.toLowerCase().includes(c.toLowerCase())`. -/
def closeMatch (c cleaned : String) : Bool :=
  decide (cleaned.toLower.data <:+: c.toLower.data)
    || decide (c.toLower.data <:+: cleaned.toLower.data)

/-- `[...new Set(userTasks.filter(t => t.category).map(t => t.category))]`:
the distinct truthy categories, in first-occurrence order. -/
def categoriesOf (userTasks : List PTask) : List String :=
  uniqueFirst (userTasks.filterMap (fun u => truthy u.category))

/-- The AI branch of `predictNextCategory` (taken when a task title is given):
requires at least 5 historical tasks and a non-empty category set, then asks
the wrapper and validates the answer against the known categories (exact
membership, then case-insensitive substring match in either direction;
otherwise no AI answer and control falls through to the statistical path).
`gemini` is the outcome of the `callGeminiAPI` invocation: `.ok text` for a
remote or fallback answer, `.error` when the wrapper (or the fallback's own
string handling) threw. -/
def aiCategoryResult (userTasks : List PTask) (t : String)
    (gemini : String → Except Unit String) : Option String :=
  if userTasks.length < 5 then none
  else if (categoriesOf userTasks).isEmpty then none
  else
    match gemini (categoryPrompt t (categoriesOf userTasks)
        (categoryUsage userTasks (categoriesOf userTasks)) (recentPairs userTasks)) with
    | .error _ => none
    | .ok aiPrediction =>
      if cleanPrediction aiPrediction ∈ categoriesOf userTasks
      then some (cleanPrediction aiPrediction)
      else (categoriesOf userTasks).find? (fun c => closeMatch c (cleanPrediction aiPrediction))

/-- The categories of the (up to) 5 most recent tasks, newest first
(`recentCategories` in the statistical section). -/
def recentCategoriesOf (userTasks : List PTask) : List String :=
  ((sortByCreatedAtDesc userTasks).take 5).filterMap (fun t => truthy t.category)

/-- `categoryFrequency` as `Object.entries` would list it: one `(category,
count)` pair per distinct truthy category, in first-occurrence order over
the unsorted `userTasks`. -/
def frequencyEntries (userTasks : List PTask) : List (String × Nat) :=
  (uniqueFirst (userTasks.filterMap (fun t => truthy t.category))).map
    (fun c => (c, (userTasks.filterMap (fun t => truthy t.category)).count c))

/-- `Object.entries(categoryFrequency).sort((a, b) => b[1] - a[1])`:
stable sort by count, descending. -/
def sortByCountDesc (entries : List (String × Nat)) : List (String × Nat) :=
  List.insertionSort (fun a b => b.2 ≤ a.2) entries

/-- `sortedCategories[0][0]`. -/
def freqTop (entries : List (String × Nat)) : Option String :=
  ((sortByCountDesc entries).head?).map (fun e => e.1)

/-- The statistical section of `predictNextCategory` (lines after the AI
branch): `null` when no task has a truthy category; else the most recent
category when it occurs at least twice among the first three recent
categories; else the most frequent category. -/
def statisticalPrediction (userTasks : List PTask) : Option String :=
  if (frequencyEntries userTasks).isEmpty then none
  else
    match recentCategoriesOf userTasks with
    | mostRecent :: _ :: _ =>
      if 2 ≤ ((recentCategoriesOf userTasks).take 3).count mostRecent
      then some mostRecent
      else freqTop (frequencyEntries userTasks)
    | _ => freqTop (frequencyEntries userTasks)

/-- `aiResult`: the AI branch runs only when the task title is truthy. -/
def aiResultOf (userTasks : List PTask) (taskTitle : Option String)
    (gemini : String → Except Unit String) : Option String :=
  match truthy taskTitle with
  | none => none
  | some t => aiCategoryResult userTasks t gemini

/-- `predictNextCategory(userId, userTasks, taskTitle)` with the tasks
already supplied (the prisma fetch is outside the component).
`cachedPrediction` is the result of the `shortTermCache.get(cacheKey)`
lookup; the function returns the prediction together with the value it
stores back into that cache (`none` when no `set` is performed). -/
def predictNextCategory (userTasks : List PTask) (taskTitle : Option String)
    (cachedPrediction : Option String) (gemini : String → Except Unit String) :
    Option String × Option String :=
  if userTasks.isEmpty then (none, none)
  else
    match truthy cachedPrediction with
    | some c => (some c, none)
    | none =>
      match aiResultOf userTasks taskTitle gemini with
      | some r => (some r, some r)
      | none =>
        match statisticalPrediction userTasks with
        | some p => (some p, some p)
        | none => (none, none)

-- Membership lemmas: everything the prediction code can return originates
-- in a truthy category of some supplied task.

instance : IsTotal (String × Nat) (fun a b => b.2 ≤ a.2) :=
  ⟨fun a b => Nat.le_total b.2 a.2⟩

instance : IsTrans (String × Nat) (fun a b => b.2 ≤ a.2) :=
  ⟨fun _ _ _ hab hbc => Nat.le_trans hbc hab⟩

theorem cats_mem {tasks : List PTask} {c : String}
    (h : c ∈ tasks.filterMap (fun t => truthy t.category)) :
    ∃ t ∈ tasks, truthy t.category = some c :=
  List.mem_filterMap.mp h

theorem categoriesOf_mem {tasks : List PTask} {c : String}
    (h : c ∈ categoriesOf tasks) : ∃ t ∈ tasks, truthy t.category = some c :=
  cats_mem (mem_uniqueFirst h)

theorem recentCategories_mem {tasks : List PTask} {c : String}
    (h : c ∈ recentCategoriesOf tasks) : ∃ t ∈ tasks, truthy t.category = some c := by
  unfold recentCategoriesOf sortByCreatedAtDesc at h
  rcases List.mem_filterMap.mp h with ⟨t, ht, hc⟩
  exact ⟨t, (List.mem_insertionSort _).mp (List.mem_of_mem_take ht), hc⟩

/-- The head of the frequency sort is a frequency-maximal entry. -/
theorem freqTop_max {entries : List (String × Nat)} {c : String}
    (h : freqTop entries = some c) :
    ∃ n, (c, n) ∈ entries ∧ ∀ e ∈ entries, e.2 ≤ n := by
  unfold freqTop at h
  cases hsorted : sortByCountDesc entries with
  | nil => rw [hsorted] at h; cases h
  | cons e0 tail =>
    rw [hsorted] at h
    rcases e0 with ⟨c0, n⟩
    simp only [List.head?_cons, Option.map_some'] at h
    have hc0 : c0 = c := Option.some.inj h
    subst hc0
    have hsort : List.Sorted (fun a b : String × Nat => b.2 ≤ a.2)
        (sortByCountDesc entries) :=
      List.sorted_insertionSort _ entries
    rw [hsorted] at hsort
    refine ⟨n, ?_, ?_⟩
    · have : (c0, n) ∈ sortByCountDesc entries := by
        rw [hsorted]; exact List.mem_cons_self _ _
      exact (List.mem_insertionSort _).mp this
    · intro e he
      have : e ∈ sortByCountDesc entries := (List.mem_insertionSort _).mpr he
      rw [hsorted] at this
      rcases List.mem_cons.mp this with h1 | h2
      · rw [h1]
      · exact (List.pairwise_cons.mp hsort).1 e h2

theorem freqEntries_mem {tasks : List PTask} {c : String}
    (h : freqTop (frequencyEntries tasks) = some c) :
    ∃ t ∈ tasks, truthy t.category = some c := by
  rcases freqTop_max h with ⟨n, hmem, _⟩
  unfold frequencyEntries at hmem
  rcases List.mem_map.mp hmem with ⟨c0, hc0, heq⟩
  have : c0 = c := congrArg Prod.fst heq
  subst this
  exact cats_mem (mem_uniqueFirst hc0)

theorem statisticalPrediction_mem {tasks : List PTask} {c : String}
    (h : statisticalPrediction tasks = some c) :
    ∃ t ∈ tasks, truthy t.category = some c := by
  unfold statisticalPrediction at h
  by_cases hemp : (frequencyEntries tasks).isEmpty
  · rw [if_pos hemp] at h; cases h
  · rw [if_neg hemp] at h
    rcases hrc : recentCategoriesOf tasks with _ | ⟨r0, rtail⟩
    · rw [hrc] at h; exact freqEntries_mem h
    · rcases rtail with _ | ⟨r1, rest⟩
      · rw [hrc] at h; exact freqEntries_mem h
      · rw [hrc] at h
        dsimp only at h
        by_cases hcnt : 2 ≤ ((r0 :: r1 :: rest).take 3).count r0
        · rw [if_pos hcnt] at h
          have : r0 = c := Option.some.inj h
          subst this
          exact recentCategories_mem (hrc ▸ List.mem_cons_self _ _)
        · rw [if_neg hcnt] at h; exact freqEntries_mem h

theorem aiCategoryResult_mem {tasks : List PTask} {t c : String}
    {gemini : String → Except Unit String}
    (h : aiCategoryResult tasks t gemini = some c) :
    ∃ u ∈ tasks, truthy u.category = some c := by
  unfold aiCategoryResult at h
  by_cases h5 : tasks.length < 5
  · rw [if_pos h5] at h; cases h
  · rw [if_neg h5] at h
    by_cases hemp : (categoriesOf tasks).isEmpty
    · rw [if_pos hemp] at h; cases h
    · rw [if_neg hemp] at h
      rcases hg : gemini (categoryPrompt t (categoriesOf tasks)
          (categoryUsage tasks (categoriesOf tasks)) (recentPairs tasks)) with e | txt
      · rw [hg] at h; cases h
      · rw [hg] at h
        dsimp only at h
        by_cases hcont : cleanPrediction txt ∈ categoriesOf tasks
        · rw [if_pos hcont] at h
          have hc : cleanPrediction txt = c := Option.some.inj h
          subst hc
          exact categoriesOf_mem hcont
        · rw [if_neg hcont] at h
          exact categoriesOf_mem (List.mem_of_find?_eq_some h)

/-- Shared helper: the C9 membership invariant, reused by the idempotence
analysis. -/
theorem predict_result_mem (tasks : List PTask)
    (taskTitle cached : Option String) (gemini : String → Except Unit String)
    (c : String) (hmiss : truthy cached = none)
    (h : (predictNextCategory tasks taskTitle cached gemini).1 = some c) :
    ∃ t ∈ tasks, truthy t.category = some c := by
  unfold predictNextCategory at h
  by_cases hemp : tasks.isEmpty
  · rw [if_pos hemp] at h; cases h
  · rw [if_neg hemp, hmiss] at h
    rcases hai : aiResultOf tasks taskTitle gemini with _ | r
    · rw [hai] at h
      rcases hst : statisticalPrediction tasks with _ | p
      · rw [hst] at h; cases h
      · rw [hst] at h
        have hp : p = c := Option.some.inj h
        subst hp
        exact statisticalPrediction_mem hst
    · rw [hai] at h
      have hr : r = c := Option.some.inj h
      subst hr
      unfold aiResultOf at hai
      rcases htt : truthy taskTitle with _ | t
      · rw [htt] at hai; cases hai
      · rw [htt] at hai
        exact aiCategoryResult_mem hai

/-- C9: prediction membership invariant.  On a cache miss, every non-`none`
string returned by `predictNextCategory` is the (truthy) category of at
least one task in the supplied history — an AI answer matching no known
category (exactly or by case-insensitive substring in either direction) is
never returned, because the non-matching branch falls through to the
statistical path. -/
theorem predictNextCategory_membership (tasks : List PTask)
    (taskTitle cached : Option String) (gemini : String → Except Unit String)
    (c : String) (hmiss : truthy cached = none)
    (h : (predictNextCategory tasks taskTitle cached gemini).1 = some c) :
    ∃ t ∈ tasks, truthy t.category = some c :=
  predict_result_mem tasks taskTitle cached gemini c hmiss h

/-- C9 witness: a single task with category `"A"` and no title hint; the
statistical path returns `"A"`, which indeed occurs in the history. -/
theorem predictNextCategory_membership_witness :
    (predictNextCategory [⟨"1", none, some "A", 10⟩] none none
        (fun _ => Except.error ())).1 = some "A"
    ∧ ∃ t ∈ [(⟨"1", none, some "A", 10⟩ : PTask)], truthy t.category = some "A" := by
  refine ⟨by decide, ?_⟩
  exact predictNextCategory_membership [⟨"1", none, some "A", 10⟩] none none
    (fun _ => Except.error ()) "A" (by decide) (by decide)

/-- C3 counterexample input: seven tasks, newest first, with categories
`B, A, A, C, C, C, C`.  The three most recent categorized tasks carry
`[B, A, A]` — `A` is shared by 2 of the 3 — yet the code predicts `C`. -/
def c3Tasks : List PTask :=
  [⟨"1", none, some "B", 70⟩, ⟨"2", none, some "A", 60⟩,
   ⟨"3", none, some "A", 50⟩, ⟨"4", none, some "C", 40⟩,
   ⟨"5", none, some "C", 30⟩, ⟨"6", none, some "C", 20⟩,
   ⟨"7", none, some "C", 10⟩]

/-- C3 counterexample: the claim "if 2 of the 3 most recent categorized
tasks share one category, that shared category is predicted" is false.
On `c3Tasks` the categories of the 3 most recent categorized tasks are
`[B, A, A]` (so `A` is shared by two of them), but the statistical path
returns `C` (the most frequent category), because the code only fires the
recency rule when the *most recent* category itself repeats and only looks
at categorized tasks among the 5 most recent tasks. -/
theorem statistical_recency_counterexample :
    ((sortByCreatedAtDesc c3Tasks).filterMap (fun t => truthy t.category)).take 3
      = ["B", "A", "A"]
    ∧ 2 ≤ (((sortByCreatedAtDesc c3Tasks).filterMap
        (fun t => truthy t.category)).take 3).count "A"
    ∧ statisticalPrediction c3Tasks = some "C"
    ∧ ¬ statisticalPrediction c3Tasks = some "A" := by
  refine ⟨by decide, by decide, by decide, by decide⟩

/-- C3 amended: on the statistical path, (1) whenever the categories of the
categorized tasks among the 5 most recent tasks begin `r0 :: r1 :: _` and
`r0` (the most recent one) occurs at least twice among the first three of
them, `r0` is predicted — in particular a recent-category history
`[A, A, B]` yields `A`; and (2) otherwise the prediction taken from the
frequency table is an overall most-frequently-used category: the winning
entry's count bounds every category's count. -/
theorem statistical_recency_rule :
    (∀ (tasks : List PTask) (r0 r1 : String) (rest : List String),
      recentCategoriesOf tasks = r0 :: r1 :: rest →
      2 ≤ ((r0 :: r1 :: rest).take 3).count r0 →
      statisticalPrediction tasks = some r0)
    ∧ (∀ (tasks : List PTask) (c : String),
      freqTop (frequencyEntries tasks) = some c →
      ∃ n, (c, n) ∈ frequencyEntries tasks
        ∧ ∀ e ∈ frequencyEntries tasks, e.2 ≤ n) := by
  constructor
  · intro tasks r0 r1 rest hrc hcount
    have hr0 : r0 ∈ recentCategoriesOf tasks := by
      rw [hrc]; exact List.mem_cons_self _ _
    rcases recentCategories_mem hr0 with ⟨t, ht, hc⟩
    have hcats : r0 ∈ tasks.filterMap (fun u => truthy u.category) :=
      List.mem_filterMap.mpr ⟨t, ht, hc⟩
    have hne : ¬ (frequencyEntries tasks).isEmpty = true := by
      unfold frequencyEntries
      cases hcase : tasks.filterMap (fun u => truthy u.category) with
      | nil => rw [hcase] at hcats; cases hcats
      | cons x xs => simp [uniqueFirst, uniqueFirstAux]
    unfold statisticalPrediction
    rw [if_neg hne, hrc]
    dsimp only
    rw [if_pos hcount]
  · intro tasks c h
    exact freqTop_max h

/-- C3 witness: a history whose 3 most recent tasks have categories
`[A, A, B]` (newest first); the statistical path returns `"A"`; and the
frequency part applied to the counterexample history, whose winner `C`
has the maximal count 4. -/
theorem statistical_recency_rule_witness :
    recentCategoriesOf [⟨"1", none, some "A", 30⟩, ⟨"2", none, some "A", 20⟩,
        ⟨"3", none, some "B", 10⟩] = ["A", "A", "B"]
    ∧ statisticalPrediction [⟨"1", none, some "A", 30⟩, ⟨"2", none, some "A", 20⟩,
        ⟨"3", none, some "B", 10⟩] = some "A"
    ∧ ∃ n, ("C", n) ∈ frequencyEntries c3Tasks
        ∧ ∀ e ∈ frequencyEntries c3Tasks, e.2 ≤ n := by
  refine ⟨by decide, ?_, ?_⟩
  · exact statistical_recency_rule.1 _ "A" "A" ["B"] (by decide) (by decide)
  · exact statistical_recency_rule.2 c3Tasks "C" (by decide)

/-- C7: category prediction without history.  `predictNextCategory` on an
empty task list returns `none`; and on a task list none of whose tasks
carries a (truthy) category it returns `none` on a cache miss.  Both
conclusions hold for *every* `gemini` outcome function, so the remote
network path is never consulted. -/
theorem predictNextCategory_no_history :
    (∀ (taskTitle cached : Option String) (gemini : String → Except Unit String),
      (predictNextCategory [] taskTitle cached gemini).1 = none)
    ∧ (∀ (tasks : List PTask) (taskTitle cached : Option String)
        (gemini : String → Except Unit String),
      (∀ t ∈ tasks, truthy t.category = none) →
      truthy cached = none →
      (predictNextCategory tasks taskTitle cached gemini).1 = none) := by
  constructor
  · intro taskTitle cached gemini
    simp [predictNextCategory]
  · intro tasks taskTitle cached gemini hnone hmiss
    by_cases hemp : tasks.isEmpty
    · unfold predictNextCategory
      rw [if_pos hemp]
    · have hcats : tasks.filterMap (fun t => truthy t.category) = [] :=
        List.filterMap_eq_nil_iff.mpr hnone
      have hai : aiResultOf tasks taskTitle gemini = none := by
        unfold aiResultOf
        rcases htt : truthy taskTitle with _ | t
        · rfl
        · dsimp only
          unfold aiCategoryResult categoriesOf
          rw [hcats]
          by_cases h5 : tasks.length < 5
          · rw [if_pos h5]
          · rw [if_neg h5]
            simp [uniqueFirst, uniqueFirstAux]
      have hst : statisticalPrediction tasks = none := by
        unfold statisticalPrediction frequencyEntries
        rw [hcats]
        simp [uniqueFirst, uniqueFirstAux]
      unfold predictNextCategory
      rw [if_neg hemp, hmiss, hai, hst]

/-- C7 witness: the empty history, and a two-task history with only `null`
and `""` categories, each with an arbitrary failing-or-answering remote. -/
theorem predictNextCategory_no_history_witness :
    (predictNextCategory [] (some "write tests") none
        (fun _ => Except.ok "Work")).1 = none
    ∧ (predictNextCategory [⟨"1", none, none, 20⟩, ⟨"2", none, some "", 10⟩]
        (some "write tests") none (fun _ => Except.ok "Work")).1 = none := by
  refine ⟨predictNextCategory_no_history.1 _ _ _, ?_⟩
  exact predictNextCategory_no_history.2 _ _ _ _ (by decide) (by decide)

/-! ## Title suggestions (`generateTitleSuggestions` in aiUtils.js) -/

/-- JSON whitespace. -/
def jsonWs (c : Char) : Bool :=
  c = ' ' || c = '\n' || c = '\t' || c = '\r'

def hexVal (c : Char) : Option Nat :=
  if '0' ≤ c ∧ c ≤ '9' then some (c.toNat - '0'.toNat)
  else if 'a' ≤ c ∧ c ≤ 'f' then some (c.toNat - 'a'.toNat + 10)
  else if 'A' ≤ c ∧ c ≤ 'F' then some (c.toNat - 'A'.toNat + 10)
  else none

def escChar (c : Char) : Option Char :=
  if c = '"' then some '"'
  else if c = '\\' then some '\\'
  else if c = '/' then some '/'
  else if c = 'b' then some (Char.ofNat 8)
  else if c = 'f' then some (Char.ofNat 12)
  else if c = 'n' then some '\n'
  else if c = 'r' then some '\r'
  else if c = 't' then some '\t'
  else none

/-- Body of a JSON string after the opening quote: returns the decoded
characters and the input after the closing quote. -/
def jsonStringAux : List Char → Option (List Char × List Char)
  | [] => none
  | '"' :: rest => some ([], rest)
  | '\\' :: 'u' :: h1 :: h2 :: h3 :: h4 :: rest =>
    match hexVal h1, hexVal h2, hexVal h3, hexVal h4, jsonStringAux rest with
    | some v1, some v2, some v3, some v4, some (s, r) =>
      some (Char.ofNat (((v1 * 16 + v2) * 16 + v3) * 16 + v4) :: s, r)
    | _, _, _, _, _ => none
  | '\\' :: e :: rest =>
    match escChar e, jsonStringAux rest with
    | some ch, some (s, r) => some (ch :: s, r)
    | _, _ => none
  | c :: rest =>
    match jsonStringAux rest with
    | some (s, r) => some (c :: s, r)
    | none => none

def parseFrac : List Char → Option (List Char)
  | '.' :: r =>
    if (r.takeWhile Char.isDigit).isEmpty then none
    else some (r.dropWhile Char.isDigit)
  | l => some l

def parseExp : List Char → Option (List Char)
  | c :: r =>
    if c = 'e' ∨ c = 'E' then
      let r2 := match r with
        | s :: r3 => if s = '+' ∨ s = '-' then r3 else r
        | [] => r
      if (r2.takeWhile Char.isDigit).isEmpty then none
      else some (r2.dropWhile Char.isDigit)
    else some (c :: r)
  | [] => some []

/-- A JSON number (grammar `-? int frac? exp?`): consumes it, returns the
rest. -/
def parseJsonNumber (l : List Char) : Option (List Char) :=
  let l1 := match l with
    | '-' :: r => r
    | _ => l
  match l1 with
  | [] => none
  | '0' :: r =>
    match parseFrac r with
    | some r2 => parseExp r2
    | none => none
  | c :: r =>
    if c.isDigit then
      match parseFrac (r.dropWhile Char.isDigit) with
      | some r2 => parseExp r2
      | none => none
    else none

/-- A JSON value as `JSON.parse` yields it.  Non-string scalars are only
ever filtered out by the consuming code (`typeof item === 'string'`), so
numbers carry no payload. -/
inductive Json where
  | jstr (s : String)
  | jnum
  | jbool (b : Bool)
  | jnull
  | jarr (elems : List Json)
  | jobj (fields : List (String × Json))

mutual

/-- Fueled recursive-descent parser for a JSON value (strict grammar as in
`JSON.parse`, modulo the rare corner of raw control characters inside
string literals, which this model accepts). -/
def parseJsonValue : Nat → List Char → Option (Json × List Char)
  | 0, _ => none
  | Nat.succ fuel, l =>
    match l.dropWhile jsonWs with
    | [] => none
    | '"' :: rest =>
      match jsonStringAux rest with
      | some (s, r) => some (.jstr (String.mk s), r)
      | none => none
    | '[' :: rest =>
      match rest.dropWhile jsonWs with
      | ']' :: r2 => some (.jarr [], r2)
      | _ =>
        match parseJsonElems fuel rest with
        | some (es, r) => some (.jarr es, r)
        | none => none
    | '{' :: rest =>
      match rest.dropWhile jsonWs with
      | '}' :: r2 => some (.jobj [], r2)
      | _ =>
        match parseJsonMembers fuel rest with
        | some (fs, r) => some (.jobj fs, r)
        | none => none
    | 't' :: 'r' :: 'u' :: 'e' :: rest => some (.jbool true, rest)
    | 'f' :: 'a' :: 'l' :: 's' :: 'e' :: rest => some (.jbool false, rest)
    | 'n' :: 'u' :: 'l' :: 'l' :: rest => some (.jnull, rest)
    | c :: rest =>
      if c = '-' ∨ c.isDigit then
        match parseJsonNumber (c :: rest) with
        | some r => some (.jnum, r)
        | none => none
      else none

/-- One-or-more comma-separated array elements up to and including `]`. -/
def parseJsonElems : Nat → List Char → Option (List Json × List Char)
  | 0, _ => none
  | Nat.succ fuel, l =>
    match parseJsonValue fuel l with
    | none => none
    | some (v, r) =>
      match r.dropWhile jsonWs with
      | ',' :: r2 =>
        match parseJsonElems fuel r2 with
        | some (vs, r3) => some (v :: vs, r3)
        | none => none
      | ']' :: r2 => some ([v], r2)
      | _ => none

/-- One-or-more `"key": value` object members up to and including `}`. -/
def parseJsonMembers : Nat → List Char → Option (List (String × Json) × List Char)
  | 0, _ => none
  | Nat.succ fuel, l =>
    match l.dropWhile jsonWs with
    | '"' :: rest =>
      match jsonStringAux rest with
      | none => none
      | some (k, r) =>
        match r.dropWhile jsonWs with
        | ':' :: r2 =>
          match parseJsonValue fuel r2 with
          | none => none
          | some (v, r3) =>
            match r3.dropWhile jsonWs with
            | ',' :: r4 =>
              match parseJsonMembers fuel r4 with
              | some (fs, r5) => some ((String.mk k, v) :: fs, r5)
              | none => none
            | '}' :: r4 => some ([(String.mk k, v)], r4)
            | _ => none
        | _ => none
    | _ => none

end

/-- `JSON.parse(s)`: a single JSON value spanning the entire input (up to
whitespace); `none` models the thrown `SyntaxError`. -/
def jsonParse? (s : String) : Option Json :=
  match parseJsonValue (2 * s.length + 2) s.data with
  | some (v, rest) => if (rest.dropWhile jsonWs).isEmpty then some v else none
  | none => none

/-- `response.match(/\[.*\]/s)`: with the greedy dot-matches-all pattern the
match, when it exists, runs from the first `[` to the last `]` of the
string, and exists precisely when the first `[` precedes the last `]`. -/
def bracketMatch (s : String) : Option String :=
  match s.data.findIdx? (fun c => c = '['), s.data.reverse.findIdx? (fun c => c = ']') with
  | some i, some jr =>
    let j := s.data.length - 1 - jr
    if i < j then some (String.mk ((s.data.drop i).take (j - i + 1))) else none
  | _, _ => none

/-- `line.match(/"([^"]+)"/)`: the first nonempty double-quoted run, if a
closing quote follows it.  (When `takeWhile` stops before the end of the
list, the next character is the closing quote by construction.) -/
def firstQuoted : List Char → Option String
  | [] => none
  | c :: rest =>
    if c = '"' then
      if (rest.takeWhile (fun ch => ¬ ch = '"')).isEmpty then firstQuoted rest
      else
        match rest.drop (rest.takeWhile (fun ch => ¬ ch = '"')).length with
        | _ :: _ => some (String.mk (rest.takeWhile (fun ch => ¬ ch = '"')))
        | [] => firstQuoted rest
    else firstQuoted rest

/-- `String.prototype.split(sep)` for a single separator character. -/
def splitOnChar (sep : Char) : List Char → List (List Char)
  | [] => [[]]
  | c :: rest =>
    if c = sep then [] :: splitOnChar sep rest
    else
      match splitOnChar sep rest with
      | h :: t => (c :: h) :: t
      | [] => [[c]]

/-- JS `String.prototype.trim` whitespace test. -/
def isWsChar (c : Char) : Bool :=
  c = ' ' || c = '\t' || c = '\n' || c = '\r' || c = '\x0b' || c = '\x0c'

def trimChars (l : List Char) : List Char :=
  ((l.dropWhile isWsChar).reverse.dropWhile isWsChar).reverse

/-- Secondary parse of the raw response: split into lines, trim, keep lines
starting with `"` (such a line trivially also `includes('"')`), extract the
first quoted run of each, drop the failures, take the first 5. -/
def lineScanSuggestions (response : String) : List String :=
  ((((splitOnChar '\n' response.data).map trimChars).filter
      (fun line => match line with | '"' :: _ => true | _ => false)).filterMap
    firstQuoted).take 5

/-- The fixed fallback list used in the `catch` blocks. -/
def staticSuggestions (pfx : String) : List String :=
  [pfx ++ " task", pfx ++ " project", pfx ++ " review", pfx ++ " update",
   pfx ++ " meeting"]

def jsonGetStr : Json → Option String
  | .jstr s => some s
  | _ => none

/-- The response-parsing block of `generateTitleSuggestions`: first a
bracketed substring parsed as JSON (filtered to strings, first 5); a
parse failure there throws and the `catch` yields the static list; with no
bracketed substring, the line scan (which cannot throw). -/
def parseSuggestions (pfx : String) (response : String) : List String :=
  match bracketMatch response with
  | some m =>
    match jsonParse? m with
    | some (Json.jarr es) => (es.filterMap jsonGetStr).take 5
    | _ => staticSuggestions pfx
  | none => lineScanSuggestions response

/-- `generateTitleSuggestions(prefix, userId)`.  `cachedSuggestions` is the
`shortTermCache.get` result (a JS array is truthy even when empty);
`gemini` is the outcome of the wrapper call.  Returns the suggestions and
the value stored back into the short-term cache. -/
def generateTitleSuggestions (pfx : String) (cachedSuggestions : Option (List String))
    (gemini : Except Unit String) : List String × Option (List String) :=
  if pfx = "" ∨ pfx.length < 3 then ([], none)
  else
    match cachedSuggestions with
    | some arr => (arr, none)
    | none =>
      match gemini with
      | .ok response => (parseSuggestions pfx response, some (parseSuggestions pfx response))
      | .error _ => (staticSuggestions pfx, none)

theorem firstQuoted_ne_empty {l : List Char} {s : String}
    (h : firstQuoted l = some s) : ¬ s = "" := by
  induction l with
  | nil => cases h
  | cons c rest ih =>
    rw [firstQuoted] at h
    by_cases hc : c = '"'
    · rw [if_pos hc] at h
      by_cases hrun : (rest.takeWhile (fun ch => ¬ ch = '"')).isEmpty
      · rw [if_pos hrun] at h
        exact ih h
      · rw [if_neg hrun] at h
        cases hdrop : rest.drop (rest.takeWhile (fun ch => ¬ ch = '"')).length with
        | nil => rw [hdrop] at h; exact ih h
        | cons x xs =>
          rw [hdrop] at h
          have hs : String.mk (rest.takeWhile (fun ch => ¬ ch = '"')) = s :=
            Option.some.inj h
          intro hemp
          rw [← hs] at hemp
          have hnil : (rest.takeWhile (fun ch => ¬ ch = '"')) = [] := by
            simpa using congrArg String.data hemp
          exact hrun (by rw [hnil]; rfl)
    · rw [if_neg hc] at h
      exact ih h

theorem append_ne_empty_right (a b : String) (hb : 0 < b.length) :
    ¬ (a ++ b) = "" := by
  intro h
  have := congrArg String.length h
  rw [String.length_append] at this
  simp only [String.length_empty] at this
  omega

/-- C4 counterexample: a remote success whose body is plain prose with no
bracketed substring and no quoted line.  The secondary line scan yields
`[]`, which is cached and returned — not 5 strings, contradicting the
claim "still returns exactly 5 non-empty strings". -/
theorem titleSuggestions_malformed_counterexample :
    (generateTitleSuggestions "upd" none
      (Except.ok "I am sorry, I cannot generate title suggestions right now.")).1 = []
    ∧ ¬ ((generateTitleSuggestions "upd" none
      (Except.ok "I am sorry, I cannot generate title suggestions right now.")).1).length = 5 := by
  constructor <;> decide

/-- C4 amended: for every prefix of length at least 3, on a cache miss with
a remote success whose body is non-JSON prose, `generateTitleSuggestions`
never throws and returns at most 5 non-empty strings: when the body has no
bracketed substring the result is the line-scan output (possibly fewer than
5, even zero, quoted fragments); when a bracketed substring exists but its
JSON parse fails, the result is the static 5-element fallback list. -/
theorem titleSuggestions_malformed (pfx response : String)
    (hlen : 3 ≤ pfx.length) :
    (bracketMatch response = none →
      (generateTitleSuggestions pfx none (Except.ok response)).1 = lineScanSuggestions response
      ∧ (lineScanSuggestions response).length ≤ 5
      ∧ ∀ s ∈ lineScanSuggestions response, ¬ s = "")
    ∧ (∀ m, bracketMatch response = some m → jsonParse? m = none →
      (generateTitleSuggestions pfx none (Except.ok response)).1 = staticSuggestions pfx
      ∧ (staticSuggestions pfx).length = 5
      ∧ ∀ s ∈ staticSuggestions pfx, ¬ s = "") := by
  have hcond : ¬ (pfx = "" ∨ pfx.length < 3) := by
    rintro (h1 | h2)
    · rw [h1] at hlen; simp at hlen
    · omega
  have hscan : ∀ s ∈ lineScanSuggestions response, ¬ s = "" := by
    intro s hs
    have hs' := List.mem_of_mem_take hs
    rcases List.mem_filterMap.mp hs' with ⟨line, _, hq⟩
    exact firstQuoted_ne_empty hq
  have hstatic : ∀ s ∈ staticSuggestions pfx, ¬ s = "" := by
    intro s hs
    simp only [staticSuggestions, List.mem_cons, List.not_mem_nil, or_false] at hs
    rcases hs with h | h | h | h | h
    · exact h ▸ append_ne_empty_right pfx " task" (by decide)
    · exact h ▸ append_ne_empty_right pfx " project" (by decide)
    · exact h ▸ append_ne_empty_right pfx " review" (by decide)
    · exact h ▸ append_ne_empty_right pfx " update" (by decide)
    · exact h ▸ append_ne_empty_right pfx " meeting" (by decide)
  constructor
  · intro hbr
    refine ⟨?_, ?_, hscan⟩
    · unfold generateTitleSuggestions
      rw [if_neg hcond]
      dsimp only
      unfold parseSuggestions
      rw [hbr]
    · unfold lineScanSuggestions
      exact List.length_take_le _ _
  · intro m hbr hparse
    refine ⟨?_, rfl, hstatic⟩
    unfold generateTitleSuggestions
    rw [if_neg hcond]
    dsimp only
    unfold parseSuggestions
    rw [hbr]
    dsimp only
    rw [hparse]

/-- C4 witness: the amended theorem at prefix `"upd"`, for (a) a prose
response containing a single quoted fragment (line scan yields one string)
and (b) a response whose bracketed substring is not valid JSON (static
fallback). -/
theorem titleSuggestions_malformed_witness :
    (3 : Nat) ≤ ("upd" : String).length
    ∧ (generateTitleSuggestions "upd" none
        (Except.ok "Here you go:\n\"update the report\" is my favourite")).1
      = lineScanSuggestions "Here you go:\n\"update the report\" is my favourite"
    ∧ lineScanSuggestions "Here you go:\n\"update the report\" is my favourite"
      = ["update the report"]
    ∧ (generateTitleSuggestions "upd" none
        (Except.ok "Sure! Options: [first, second] etc.")).1 = staticSuggestions "upd"
    ∧ staticSuggestions "upd"
      = ["upd task", "upd project", "upd review", "upd update", "upd meeting"] := by
  have h := titleSuggestions_malformed "upd"
    "Here you go:\n\"update the report\" is my favourite" (by decide)
  have h2 := titleSuggestions_malformed "upd" "Sure! Options: [first, second] etc."
    (by decide)
  refine ⟨by decide, (h.1 (by decide)).1, by decide, ?_, by decide⟩
  exact (h2.2 "[first, second]" (by decide) (by rfl)).1

/-! ## Task data model (prisma rows as consumed by the feature functions) -/

inductive TStatus where
  | PENDING
  | IN_PROGRESS
  | COMPLETED
  | CANCELLED
deriving DecidableEq

inductive TPriority where
  | LOW
  | MEDIUM
  | HIGH
  | URGENT
deriving DecidableEq

structure Person where
  firstName : String
  lastName : String
deriving DecidableEq

/-- A task row.  `dueDate` is a millisecond timestamp (`null` allowed);
`assignedTo`/`createdBy` are the included user records where selected. -/
structure TaskRow where
  id : String
  title : String
  description : Option String
  status : TStatus
  priority : TPriority
  category : Option String
  dueDate : Option Nat
  assignedTo : Option Person
  createdBy : Option Person
deriving DecidableEq

/-! ## Description generation (`generateTaskDescription` in aiUtils.js) -/

/-- JS `String.prototype.trim` on the character list. -/
def jsTrim (s : String) : String :=
  String.mk (trimChars s.data)

/-- One `replace(/^Label/, '')` step. -/
def stripPre (label : List Char) (l : List Char) : List Char :=
  if label.isPrefixOf l then l.drop label.length else l

/-- `generatedDescription.trim().replace(/^Generated Description:/, '')
.replace(/^Description:/, '').replace(/^Task Description:/, '').trim()`. -/
def cleanDescription (s : String) : String :=
  String.mk (trimChars (stripPre "Task Description:".data (stripPre "Description:".data
    (stripPre "Generated Description:".data (trimChars s.data)))))

/-- `generateTaskDescription(title, summary, userId)`.  `cachedDescription`
is the `mediumTermCache.get` lookup result; `gemini` the wrapper-call
outcome (the description fallback always returns a string, so `.error`
models the outer catch, which returns the original summary).  Returns the
description and the value stored back into the medium-term cache. -/
def generateTaskDescription (title summary : String) (cachedDescription : Option String)
    (gemini : Except Unit String) : Option String × Option String :=
  if summary = "" ∨ trimChars summary.data = [] then (none, none)
  else
    match truthy cachedDescription with
    | some c => (some c, none)
    | none =>
      match gemini with
      | .ok g => (some (cleanDescription g), some (cleanDescription g))
      | .error _ => (some summary, none)

/-! ## Task prioritization (`generateTaskPrioritization` in aiUtils.js) -/

/-- `const priorityOrder = { 'URGENT': 0, 'HIGH': 1, 'MEDIUM': 2, 'LOW': 3 }`. -/
def priorityRank : TPriority → Nat
  | .URGENT => 0
  | .HIGH => 1
  | .MEDIUM => 2
  | .LOW => 3

def priorityName : TPriority → String
  | .LOW => "LOW"
  | .MEDIUM => "MEDIUM"
  | .HIGH => "HIGH"
  | .URGENT => "URGENT"

/-- `task.dueDate && new Date(task.dueDate) < new Date()`. -/
def isOverdue (now : Nat) (t : TaskRow) : Bool :=
  match t.dueDate with
  | some d => decide (d < now)
  | none => false

/-- The fallback sort comparator of `generateTaskPrioritization`:
overdue first, then priority rank, then ascending due date with missing
due dates last. -/
def prioCmp (now : Nat) (a b : TaskRow) : Int :=
  if isOverdue now a ∧ ¬ isOverdue now b then -1
  else if ¬ isOverdue now a ∧ isOverdue now b then 1
  else if ¬ priorityRank a.priority = priorityRank b.priority then
    (priorityRank a.priority : Int) - (priorityRank b.priority : Int)
  else
    match a.dueDate, b.dueDate with
    | some da, some db => (da : Int) - (db : Int)
    | some _, none => -1
    | none, some _ => 1
    | none, none => 0

/-- A stable JS `Array.prototype.sort(c)`: `x` precedes `y` exactly when
`c x y ≤ 0` for elements compared in original order. -/
def jsSortBy (c : α → α → Int) (l : List α) : List α :=
  List.insertionSort (fun x y => c x y ≤ 0) l

/-- `userTasks.filter(t => t.status !== 'COMPLETED' && t.status !== 'CANCELLED')`. -/
def activeTasksOf (userTasks : List TaskRow) : List TaskRow :=
  userTasks.filter (fun t =>
    decide (¬ t.status = TStatus.COMPLETED ∧ ¬ t.status = TStatus.CANCELLED))

/-- An element of the fallback `prioritizedTasks` array. -/
structure PrioEntry where
  id : String
  title : String
  reason : String
deriving DecidableEq

/-- The value returned by `generateTaskPrioritization`:
* `noTasks` — `{message: "No tasks found to prioritize.", prioritizedTasks: []}`;
* `noActive` — `{message: "No active tasks found to prioritize.", prioritizedTasks: []}`;
* `fromAI parsed` — `{message: "Here are your prioritized tasks...", ...parsedResponse}`
  with `parsedResponse` the JSON object parsed out of the response;
* `fallbackSort entries` — the deterministic fallback object with the given
  `prioritizedTasks`, the fixed `logic` string and empty `atRiskTasks`/
  `suggestions`;
* `errorResult` — the outer-catch object
  `{message: "Error generating task prioritization...", prioritizedTasks: [], ...}`. -/
inductive PrioResult where
  | noTasks
  | noActive
  | fromAI (parsed : Json)
  | fallbackSort (entries : List PrioEntry)
  | errorResult

/-- `generatedResponse.match(/\{[\s\S]*\}/)`: first `{` to last `}`. -/
def braceMatch (s : String) : Option String :=
  match s.data.findIdx? (fun c => c = '{'), s.data.reverse.findIdx? (fun c => c = '}') with
  | some i, some jr =>
    let j := s.data.length - 1 - jr
    if i < j then some (String.mk ((s.data.drop i).take (j - i + 1))) else none
  | _, _ => none

/-- `` `${task.priority} priority${task.dueDate ? `, due ${new
Date(task.dueDate).toLocaleDateString()}` : ''}` ``.  `fmtDate` abstracts
the locale-dependent `toLocaleDateString`. -/
def prioReason (fmtDate : Nat → String) (t : TaskRow) : String :=
  priorityName t.priority ++ " priority" ++
    (match t.dueDate with
     | some d => ", due " ++ fmtDate d
     | none => "")

/-- The fallback `prioritizedTasks`: active tasks sorted by `prioCmp`,
first 5, each with the synthesized reason. -/
def prioFallbackEntries (userTasks : List TaskRow) (now : Nat)
    (fmtDate : Nat → String) : List PrioEntry :=
  ((jsSortBy (prioCmp now) (activeTasksOf userTasks)).take 5).map
    (fun t => ⟨t.id, t.title, prioReason fmtDate t⟩)

/-- `generateTaskPrioritization(userId, userTasks)`.  `cachedResult` is the
`mediumTermCache.get` lookup (an object is always truthy); `gemini` the
outcome of `callGeminiAPI(prompt)` — which is called with *no* fallback, so
a remote failure throws into the outer catch (`errorResult`).  On success
the code extracts the first brace-delimited substring and `JSON.parse`s it;
both a missing match (a thrown `'No valid JSON found in response'`) and a
parse error land in the parse catch, which builds the deterministic
fallback.  Returns the result and the value stored into the cache. -/
def generateTaskPrioritization (userTasks : List TaskRow) (cachedResult : Option PrioResult)
    (gemini : Except Unit String) (now : Nat) (fmtDate : Nat → String) :
    PrioResult × Option PrioResult :=
  if userTasks.isEmpty then (.noTasks, none)
  else if (activeTasksOf userTasks).isEmpty then (.noActive, none)
  else
    match cachedResult with
    | some r => (r, none)
    | none =>
      match gemini with
      | .error _ => (.errorResult, none)
      | .ok g =>
        match (braceMatch g).bind jsonParse? with
        | some parsed => (.fromAI parsed, some (.fromAI parsed))
        | none =>
          (.fallbackSort (prioFallbackEntries userTasks now fmtDate),
           some (.fallbackSort (prioFallbackEntries userTasks now fmtDate)))

/-- The claim's description of the fallback order, as a relation:
overdue-first, then priority rank URGENT > HIGH > MEDIUM > LOW, then
ascending due date with tasks lacking a due date last. -/
def dueLe : Option Nat → Option Nat → Prop
  | some a, some b => a ≤ b
  | some _, none => True
  | none, some _ => False
  | none, none => True

def claimPrioLe (now : Nat) (a b : TaskRow) : Prop :=
  (isOverdue now a = true ∧ isOverdue now b = false)
  ∨ (isOverdue now a = isOverdue now b
     ∧ (priorityRank a.priority < priorityRank b.priority
        ∨ (priorityRank a.priority = priorityRank b.priority
           ∧ dueLe a.dueDate b.dueDate)))

theorem prioCmp_le_iff (now : Nat) (a b : TaskRow) :
    prioCmp now a b ≤ 0 ↔ claimPrioLe now a b := by
  unfold prioCmp claimPrioLe
  cases ha : isOverdue now a <;> cases hb : isOverdue now b <;> simp
  all_goals
    by_cases hr : priorityRank a.priority = priorityRank b.priority
  all_goals
    first
    | (rw [if_pos hr]
       simp only [hr, lt_self_iff_false, false_or, eq_self_iff_true, true_and]
       cases a.dueDate <;> cases b.dueDate <;> simp [dueLe] <;> omega)
    | (rw [if_neg hr]
       simp only [hr, and_false, false_and, or_false]
       omega)

/-- The claim's concrete example: a LOW non-overdue task, an URGENT overdue
task, a HIGH non-overdue task (all active). -/
def c6Tasks : List TaskRow :=
  [⟨"t1", "Update docs", none, .PENDING, .LOW, none, none, none, none⟩,
   ⟨"t2", "Fix security bug", none, .PENDING, .URGENT, none, some 500, none, none⟩,
   ⟨"t3", "Prepare slides", none, .PENDING, .HIGH, none, none, none, none⟩]

/-- C6: prioritization fallback ordering.  (1) The fallback comparator
orders exactly as claimed: `a` precedes `b` iff overdue-before-non-overdue,
then priority rank URGENT > HIGH > MEDIUM > LOW, then ascending due date
with missing due dates last; the fallback result is the first 5 of the
active tasks in that (stable) order, each with the reason synthesized from
priority and due date.  (2) On the claim's example — LOW/not-overdue,
URGENT/overdue, HIGH/not-overdue at `now = 1000` — the parse-failure
fallback returns the URGENT overdue task first. -/
theorem prioritization_fallback_ordering :
    (∀ (now : Nat) (a b : TaskRow), prioCmp now a b ≤ 0 ↔ claimPrioLe now a b)
    ∧ (generateTaskPrioritization c6Tasks none
        (Except.ok "The tasks look fine to me.") 1000 (fun _ => "1/1/2024")).1
      = PrioResult.fallbackSort
          [⟨"t2", "Fix security bug", "URGENT priority, due 1/1/2024"⟩,
           ⟨"t3", "Prepare slides", "HIGH priority"⟩,
           ⟨"t1", "Update docs", "LOW priority"⟩] :=
  ⟨prioCmp_le_iff, rfl⟩

/-! ## Critical tasks report (`generateCriticalTasksReport` in aiUtils.js) -/

def statusName : TStatus → String
  | .PENDING => "PENDING"
  | .IN_PROGRESS => "IN_PROGRESS"
  | .COMPLETED => "COMPLETED"
  | .CANCELLED => "CANCELLED"

/-- `` task.assignedTo ? `${firstName} ${lastName}` : 'Unassigned' ``. -/
def personName (p : Option Person) : String :=
  match p with
  | some u => u.firstName ++ " " ++ u.lastName
  | none => "Unassigned"

/-- Critical = HIGH or URGENT priority, neither completed nor cancelled. -/
def criticalTasksOf (tasks : List TaskRow) : List TaskRow :=
  tasks.filter (fun t => decide ((t.priority = TPriority.HIGH ∨ t.priority = TPriority.URGENT)
    ∧ ¬ t.status = TStatus.COMPLETED ∧ ¬ t.status = TStatus.CANCELLED))

/-- Overdue = truthy due date in the past, neither completed nor cancelled. -/
def overdueTasksOf (tasks : List TaskRow) (now : Nat) : List TaskRow :=
  tasks.filter (fun t =>
    match t.dueDate with
    | some d => decide (d < now)
        && decide (¬ t.status = TStatus.COMPLETED ∧ ¬ t.status = TStatus.CANCELLED)
    | none => false)

/-- `Math.floor((new Date() - new Date(task.dueDate)) / (1000*60*60*24))`. -/
def daysOverdue (now : Nat) (t : TaskRow) : Nat :=
  match t.dueDate with
  | some d => (now - d) / 86400000
  | none => 0

/-- `new Date(task.dueDate).getTime()`, with `new Date(null)` the epoch. -/
def dueMs (t : TaskRow) : Nat :=
  match t.dueDate with
  | some d => d
  | none => 0

/-- One bullet of the fallback report's Critical Tasks section. -/
def criticalLine (t : TaskRow) : String :=
  "- " ++ t.title ++ " (" ++ priorityName t.priority ++ " priority, assigned to "
    ++ personName t.assignedTo ++ ")"

/-- One bullet of the fallback report's Overdue Tasks section. -/
def overdueLine (now : Nat) (t : TaskRow) : String :=
  "- " ++ t.title ++ " (" ++ toString (daysOverdue now t)
    ++ " days overdue, assigned to " ++ personName t.assignedTo ++ ")"

/-- The `reportFallback` template literal (closure over `criticalTasks` and
`overdueTasks`; it ignores its prompt argument). -/
def reportFallbackText (criticalTasks overdueTasks : List TaskRow) (now : Nat) : String :=
  "\n## Executive Summary: Critical and Overdue Tasks\n\n### Overview\nThe system currently has "
  ++ toString criticalTasks.length ++ " critical tasks and " ++ toString overdueTasks.length
  ++ " overdue tasks that require immediate attention.\n\n### Critical Tasks\n"
  ++ String.intercalate "\n" (criticalTasks.map criticalLine)
  ++ "\n\n### Overdue Tasks\n"
  ++ String.intercalate "\n" (overdueTasks.map (overdueLine now))
  ++ "\n\n### Recommendations\n1. Address the overdue tasks immediately, especially those with high or urgent priority\n2. Review resource allocation for team members with multiple critical or overdue tasks\n3. Consider implementing stricter deadline monitoring to prevent future overdue tasks\n\nThis report was generated automatically based on current task data.\n      "

/-- One row of the task data embedded in the report prompt.  The exact
`JSON.stringify(..., null, 2)` rendering is abbreviated to a field list:
the prompt's only observable role in the component is as the wrapper
cache-key input, for which only determinism in the data matters. -/
def taskBrief (now : Nat) (t : TaskRow) : String :=
  t.title ++ "|" ++ priorityName t.priority ++ "|" ++ statusName t.status ++ "|"
    ++ (match t.dueDate with
        | some d => toString d
        | none => "No due date") ++ "|"
    ++ personName t.assignedTo ++ "|" ++ personName t.createdBy ++ "|"
    ++ toString (daysOverdue now t)

/-- The report prompt: critical tasks, then the overdue tasks sorted most
ascending by due date. -/
def reportPrompt (criticalTasks overdueTasks : List TaskRow) (now : Nat) : String :=
  "Generate a professional executive summary report for an admin dashboard based on the following task data:\n"
  ++ "CRITICAL TASKS (" ++ toString criticalTasks.length ++ "):\n"
  ++ String.intercalate "\n" (criticalTasks.map (taskBrief now)) ++ "\n"
  ++ "OVERDUE TASKS (" ++ toString overdueTasks.length ++ "):\n"
  ++ String.intercalate "\n"
      ((jsSortBy (fun a b => (dueMs a : Int) - (dueMs b : Int)) overdueTasks).map
        (taskBrief now)) ++ "\n"
  ++ "Please create a concise report. Executive Summary Report:"

/-- `generateCriticalTasksReport(tasks)`: filters critical and overdue
tasks, calls the wrapper (medium tier, 1h ttl) with the templated report
fallback, and returns the trimmed text; the catch returns the fixed error
string.  The wrapper-level medium-term cache is threaded explicitly —
this function has no feature-level cache of its own. -/
def generateCriticalTasksReport (tasks : List TaskRow) (remote : RemoteResult)
    (mediumCache : CacheManager String) (now : Nat) : String × CacheManager String :=
  if tasks.isEmpty then ("No tasks found for analysis.", mediumCache)
  else
    match callGeminiAPI (reportPrompt (criticalTasksOf tasks) (overdueTasksOf tasks now) now)
        true 3600000
        (some (fun _ => reportFallbackText (criticalTasksOf tasks) (overdueTasksOf tasks now) now))
        remote mediumCache now with
    | .ok (text, c2) => (jsTrim text, c2)
    | .error _ => ("Error generating report. Please try again later.", mediumCache)

/-! ## C5: exception containment across the five feature functions -/

theorem aiCategoryResult_error (tasks : List PTask) (t : String) :
    aiCategoryResult tasks t (fun _ => Except.error ()) = none := by
  unfold aiCategoryResult
  by_cases h5 : tasks.length < 5
  · rw [if_pos h5]
  · rw [if_neg h5]
    by_cases hemp : (categoriesOf tasks).isEmpty
    · rw [if_pos hemp]
    · rw [if_neg hemp]

theorem predictNextCategory_error (tasks : List PTask) (taskTitle : Option String) :
    (predictNextCategory tasks taskTitle none (fun _ => Except.error ())).1
      = statisticalPrediction tasks := by
  by_cases hemp : tasks.isEmpty
  · have : tasks = [] := List.isEmpty_iff.mp hemp
    subst this
    rfl
  · unfold predictNextCategory
    rw [if_neg hemp]
    have hai : aiResultOf tasks taskTitle (fun _ => Except.error ()) = none := by
      unfold aiResultOf
      rcases htt : truthy taskTitle with _ | t
      · rfl
      · exact aiCategoryResult_error tasks t
    dsimp only [truthy]
    rw [hai]
    rcases hst : statisticalPrediction tasks with _ | p <;> rfl

/-- Wrapper failure with a fallback on a clean cache miss (shared helper). -/
theorem callGeminiAPI_fallback_result (prompt : String) (cacheTtl now : Nat)
    (f : String → String) (remote : RemoteResult) (c : CacheManager String)
    (hfail : remote.isFailure = true)
    (habsent : c.cache.lookup (generateHash prompt) = none) :
    callGeminiAPI prompt true cacheTtl (some f) remote c now = .ok (f prompt, c) := by
  have hget : c.get (generateHash prompt) now = (none, c) := by
    simp [CacheManager.get, habsent]
  cases remote with
  | ok t => simp [RemoteResult.isFailure] at hfail
  | networkError => simp [callGeminiAPI, hget, truthy]
  | httpError => simp [callGeminiAPI, hget, truthy]
  | malformed => simp [callGeminiAPI, hget, truthy]

/-- C5: feature-function exception containment.  For each of the five
exported feature functions, a wrapper-call failure (and, for the report,
any remote failure) is absorbed and a degraded value is returned normally:
prediction degrades to the statistical prediction, description to the
original summary, title suggestions to the static 5-element list,
prioritization to the fixed error object, and the report to the templated
fallback text.  (Parse failures are likewise absorbed: see the C4 and C6
theorems; in this embedding every feature function is a total function
into plain result values, mirroring the top-level try/catch of each.) -/
theorem feature_exception_containment :
    (∀ (tasks : List PTask) (taskTitle : Option String),
      (predictNextCategory tasks taskTitle none (fun _ => Except.error ())).1
        = statisticalPrediction tasks)
    ∧ (∀ title summary : String, ¬ trimChars summary.data = [] →
      (generateTaskDescription title summary none (Except.error ())).1 = some summary)
    ∧ (∀ pfx : String, 3 ≤ pfx.length →
      (generateTitleSuggestions pfx none (Except.error ())).1 = staticSuggestions pfx)
    ∧ (∀ (tasks : List TaskRow) (now : Nat) (fmtDate : Nat → String),
      ¬ tasks.isEmpty = true → ¬ (activeTasksOf tasks).isEmpty = true →
      (generateTaskPrioritization tasks none (Except.error ()) now fmtDate).1
        = PrioResult.errorResult)
    ∧ (∀ (tasks : List TaskRow) (remote : RemoteResult) (c : CacheManager String) (now : Nat),
      ¬ tasks.isEmpty = true → remote.isFailure = true →
      c.cache.lookup (generateHash (reportPrompt (criticalTasksOf tasks)
        (overdueTasksOf tasks now) now)) = none →
      generateCriticalTasksReport tasks remote c now
        = (jsTrim (reportFallbackText (criticalTasksOf tasks) (overdueTasksOf tasks now) now), c)) := by
  refine ⟨predictNextCategory_error, ?_, ?_, ?_, ?_⟩
  · intro title summary hsum
    have hcond : ¬ (summary = "" ∨ trimChars summary.data = []) := by
      rintro (h1 | h2)
      · subst h1; exact hsum rfl
      · exact hsum h2
    unfold generateTaskDescription
    rw [if_neg hcond]
    rfl
  · intro pfx hlen
    have hcond : ¬ (pfx = "" ∨ pfx.length < 3) := by
      rintro (h1 | h2)
      · rw [h1] at hlen; simp at hlen
      · omega
    unfold generateTitleSuggestions
    rw [if_neg hcond]
  · intro tasks now fmtDate hne hact
    unfold generateTaskPrioritization
    rw [if_neg hne, if_neg hact]
  · intro tasks remote c now hne hfail habsent
    unfold generateCriticalTasksReport
    rw [if_neg hne,
      callGeminiAPI_fallback_result _ 3600000 now _ remote c hfail habsent]

/-- C5 witness: each failure conjunct at a concrete input (with an overdue
HIGH task for the report so that both report sections are populated). -/
theorem feature_exception_containment_witness :
    (predictNextCategory [⟨"1", none, some "A", 10⟩] (some "pay rent") none
        (fun _ => Except.error ())).1
      = statisticalPrediction [⟨"1", none, some "A", 10⟩]
    ∧ (generateTaskDescription "Pay rent" "transfer the money" none
        (Except.error ())).1 = some "transfer the money"
    ∧ (generateTitleSuggestions "upd" none (Except.error ())).1 = staticSuggestions "upd"
    ∧ (generateTaskPrioritization c6Tasks none (Except.error ()) 1000
        (fun _ => "1/1/2024")).1 = PrioResult.errorResult
    ∧ generateCriticalTasksReport
        [⟨"t9", "Ship release", none, .PENDING, .HIGH, none, some 400,
          some ⟨"Ada", "Lovelace"⟩, some ⟨"Grace", "Hopper"⟩⟩]
        RemoteResult.networkError (mkCacheManager String 3600000) 1000
      = (jsTrim (reportFallbackText
          (criticalTasksOf [⟨"t9", "Ship release", none, .PENDING, .HIGH, none, some 400,
            some ⟨"Ada", "Lovelace"⟩, some ⟨"Grace", "Hopper"⟩⟩])
          (overdueTasksOf [⟨"t9", "Ship release", none, .PENDING, .HIGH, none, some 400,
            some ⟨"Ada", "Lovelace"⟩, some ⟨"Grace", "Hopper"⟩⟩] 1000) 1000),
         mkCacheManager String 3600000) := by
  refine ⟨feature_exception_containment.1 _ _, ?_, ?_, ?_, ?_⟩
  · exact feature_exception_containment.2.1 "Pay rent" "transfer the money" (by decide)
  · exact feature_exception_containment.2.2.1 "upd" (by decide)
  · exact feature_exception_containment.2.2.2.1 c6Tasks 1000 (fun _ => "1/1/2024")
      (by decide) (by decide)
  · exact feature_exception_containment.2.2.2.2 _ RemoteResult.networkError
      (mkCacheManager String 3600000) 1000 (by decide) (by decide) (by decide)

/-! ## C8: idempotence under a live cache -/

theorem truthy_ne_empty {o : Option String} {v : String}
    (h : truthy o = some v) : ¬ v = "" := by
  unfold truthy at h
  rcases o with _ | s
  · cases h
  · dsimp only at h
    by_cases hs : s = ""
    · rw [if_pos hs] at h; cases h
    · rw [if_neg hs] at h
      exact (Option.some.inj h) ▸ hs

/-- Wrapper success on a clean cache miss stores the text (shared helper). -/
theorem callGeminiAPI_ok_miss (prompt : String) (cacheTtl now : Nat)
    (fb : Option (String → String)) (t : String) (c : CacheManager String)
    (habsent : c.cache.lookup (generateHash prompt) = none) :
    callGeminiAPI prompt true cacheTtl fb (RemoteResult.ok t) c now
      = .ok (t, c.set (generateHash prompt) t (some cacheTtl) now) := by
  simp [callGeminiAPI, CacheManager.get, habsent, truthy]

/-- Wrapper cache hit (non-empty cached text) short-circuits every remote
outcome (shared helper). -/
theorem callGeminiAPI_cache_hit (prompt : String) (cacheTtl now : Nat)
    (fb : Option (String → String)) (remote : RemoteResult) (c : CacheManager String)
    (t : String) (hhit : (c.get (generateHash prompt) now).1 = some t)
    (ht : ¬ t = "") :
    callGeminiAPI prompt true cacheTtl fb remote c now
      = .ok (t, (c.get (generateHash prompt) now).2) := by
  simp [callGeminiAPI, hhit, truthy, ht]

theorem generateTitleSuggestions_ok_eq (pfx resp : String)
    (hcond : ¬ (pfx = "" ∨ pfx.length < 3)) :
    generateTitleSuggestions pfx none (Except.ok resp)
      = (parseSuggestions pfx resp, some (parseSuggestions pfx resp)) := by
  unfold generateTitleSuggestions
  rw [if_neg hcond]

theorem generateTitleSuggestions_cached_eq (pfx : String) (arr : List String)
    (gem : Except Unit String) (hcond : ¬ (pfx = "" ∨ pfx.length < 3)) :
    generateTitleSuggestions pfx (some arr) gem = (arr, none) := by
  unfold generateTitleSuggestions
  rw [if_neg hcond]

theorem generateTaskDescription_ok_eq (title summary resp : String)
    (hcond : ¬ (summary = "" ∨ trimChars summary.data = [])) :
    generateTaskDescription title summary none (Except.ok resp)
      = (some (cleanDescription resp), some (cleanDescription resp)) := by
  unfold generateTaskDescription
  rw [if_neg hcond]
  rfl

theorem generateTaskDescription_cached_eq (title summary v : String)
    (gem : Except Unit String) (hv : ¬ v = "")
    (hcond : ¬ (summary = "" ∨ trimChars summary.data = [])) :
    generateTaskDescription title summary (some v) gem = (some v, none) := by
  unfold generateTaskDescription
  rw [if_neg hcond]
  dsimp only [truthy]
  rw [if_neg hv]

theorem generateTaskPrioritization_ok_eq (tasks : List TaskRow) (resp : String)
    (now : Nat) (fmtDate : Nat → String)
    (hne : ¬ tasks.isEmpty = true) (hact : ¬ (activeTasksOf tasks).isEmpty = true) :
    (generateTaskPrioritization tasks none (Except.ok resp) now fmtDate).2
      = some (generateTaskPrioritization tasks none (Except.ok resp) now fmtDate).1 := by
  unfold generateTaskPrioritization
  rw [if_neg hne, if_neg hact]
  dsimp only
  rcases hp : (braceMatch resp).bind jsonParse? with _ | parsed <;> rfl

theorem generateTaskPrioritization_cached_eq (tasks : List TaskRow)
    (r : PrioResult) (gem : Except Unit String) (now : Nat) (fmtDate : Nat → String)
    (hne : ¬ tasks.isEmpty = true) (hact : ¬ (activeTasksOf tasks).isEmpty = true) :
    generateTaskPrioritization tasks (some r) gem now fmtDate = (r, none) := by
  unfold generateTaskPrioritization
  rw [if_neg hne, if_neg hact]

/-- The single-task list of the C8 report scenario. -/
def c8Tasks : List TaskRow :=
  [⟨"t9", "Ship release", none, .PENDING, .HIGH, none, some 400,
    some ⟨"Ada", "Lovelace"⟩, some ⟨"Grace", "Hopper"⟩⟩]

set_option maxRecDepth 8000 in
/-- C8 counterexample: `generateCriticalTasksReport` has no feature-level
cache, and the wrapper does not cache fallback output, so when the remote
call fails the first invocation writes nothing (the cache is returned
unchanged).  A second, immediately following invocation with identical
inputs is therefore not served from any cache: if the remote call now
succeeds with a different body, the two results differ byte-wise. -/
theorem feature_cache_idempotence_counterexample :
    (generateCriticalTasksReport c8Tasks RemoteResult.networkError
        (mkCacheManager String 3600000) 1000).2 = mkCacheManager String 3600000
    ∧ ¬ (generateCriticalTasksReport c8Tasks RemoteResult.networkError
          (mkCacheManager String 3600000) 1000).1
        = (generateCriticalTasksReport c8Tasks (RemoteResult.ok "Great report")
            ((generateCriticalTasksReport c8Tasks RemoteResult.networkError
              (mkCacheManager String 3600000) 1000).2) 1000).1 := by
  constructor <;> decide

/-- C8 amended: for each feature function, when the first invocation stores
its result in the feature-level (or, for the report, wrapper-level) cache —
which happens whenever the wrapper call returns (title suggestions,
prioritization), the cleaned description is non-empty, the prediction is
non-null, or the report's remote call succeeds with a non-empty body — an
immediately following invocation with identical inputs is answered from
that cache (independently of the second call's remote outcome) with the
byte-identical result. -/
theorem feature_cache_idempotence :
    (∀ (pfx resp : String) (gem2 : Except Unit String), 3 ≤ pfx.length →
      (generateTitleSuggestions pfx none (Except.ok resp)).2
        = some (generateTitleSuggestions pfx none (Except.ok resp)).1
      ∧ (generateTitleSuggestions pfx
          (some (generateTitleSuggestions pfx none (Except.ok resp)).1) gem2).1
        = (generateTitleSuggestions pfx none (Except.ok resp)).1)
    ∧ (∀ (title summary resp : String) (gem2 : Except Unit String),
      ¬ trimChars summary.data = [] → ¬ cleanDescription resp = "" →
      (generateTaskDescription title summary none (Except.ok resp)).1
        = some (cleanDescription resp)
      ∧ (generateTaskDescription title summary none (Except.ok resp)).2
        = some (cleanDescription resp)
      ∧ (generateTaskDescription title summary (some (cleanDescription resp)) gem2).1
        = some (cleanDescription resp))
    ∧ (∀ (tasks : List PTask) (taskTitle : Option String)
        (gemini gem2 : String → Except Unit String) (v : String),
      (predictNextCategory tasks taskTitle none gemini).1 = some v →
      (predictNextCategory tasks taskTitle none gemini).2 = some v
      ∧ ¬ v = ""
      ∧ (predictNextCategory tasks taskTitle (some v) gem2).1 = some v)
    ∧ (∀ (tasks : List TaskRow) (resp : String) (now : Nat)
        (fmtDate : Nat → String) (gem2 : Except Unit String),
      ¬ tasks.isEmpty = true → ¬ (activeTasksOf tasks).isEmpty = true →
      (generateTaskPrioritization tasks none (Except.ok resp) now fmtDate).2
        = some (generateTaskPrioritization tasks none (Except.ok resp) now fmtDate).1
      ∧ (generateTaskPrioritization tasks
          (some (generateTaskPrioritization tasks none (Except.ok resp) now fmtDate).1)
          gem2 now fmtDate).1
        = (generateTaskPrioritization tasks none (Except.ok resp) now fmtDate).1)
    ∧ (∀ (tasks : List TaskRow) (t : String) (c0 : CacheManager String) (now : Nat)
        (remote2 : RemoteResult),
      ¬ tasks.isEmpty = true → ¬ t = "" →
      c0.cache.lookup (generateHash (reportPrompt (criticalTasksOf tasks)
        (overdueTasksOf tasks now) now)) = none →
      (generateCriticalTasksReport tasks (RemoteResult.ok t) c0 now).1 = jsTrim t
      ∧ (generateCriticalTasksReport tasks remote2
          ((generateCriticalTasksReport tasks (RemoteResult.ok t) c0 now).2) now).1
        = jsTrim t) := by
  refine ⟨?_, ?_, ?_, ?_, ?_⟩
  · -- title suggestions
    intro pfx resp gem2 hlen
    have hcond : ¬ (pfx = "" ∨ pfx.length < 3) := by
      rintro (h1 | h2)
      · rw [h1] at hlen; simp at hlen
      · omega
    rw [generateTitleSuggestions_ok_eq pfx resp hcond,
      generateTitleSuggestions_cached_eq pfx _ gem2 hcond]
    exact ⟨rfl, rfl⟩
  · -- description
    intro title summary resp gem2 hsum hclean
    have hcond : ¬ (summary = "" ∨ trimChars summary.data = []) := by
      rintro (h1 | h2)
      · subst h1; exact hsum rfl
      · exact hsum h2
    rw [generateTaskDescription_ok_eq title summary resp hcond,
      generateTaskDescription_cached_eq title summary _ gem2 hclean hcond]
    exact ⟨rfl, rfl, rfl⟩
  · -- prediction
    intro tasks taskTitle gemini gem2 v h
    by_cases hemp : tasks.isEmpty
    · exfalso
      unfold predictNextCategory at h
      rw [if_pos hemp] at h
      cases h
    · have hv : ¬ v = "" := by
        rcases predict_result_mem tasks taskTitle none gemini v rfl h with ⟨u, _, hu⟩
        exact truthy_ne_empty hu
      have hcache : (predictNextCategory tasks taskTitle none gemini).2 = some v := by
        unfold predictNextCategory at h ⊢
        rw [if_neg hemp] at h ⊢
        dsimp only [truthy] at h ⊢
        rcases hai : aiResultOf tasks taskTitle gemini with _ | r
        · rw [hai] at h
          rcases hst : statisticalPrediction tasks with _ | p
          · rw [hst] at h
            dsimp only at h
            cases h
          · rw [hst] at h
            dsimp only at h ⊢
            exact h
        · rw [hai] at h
          dsimp only at h ⊢
          exact h
      refine ⟨hcache, hv, ?_⟩
      unfold predictNextCategory
      rw [if_neg hemp]
      dsimp only [truthy]
      rw [if_neg hv]
  · -- prioritization
    intro tasks resp now fmtDate gem2 hne hact
    refine ⟨generateTaskPrioritization_ok_eq tasks resp now fmtDate hne hact, ?_⟩
    rw [generateTaskPrioritization_cached_eq tasks _ gem2 now fmtDate hne hact]
  · -- report
    intro tasks t c0 now remote2 hne ht habsent
    have hkey := lookup_set_pos c0
      (generateHash (reportPrompt (criticalTasksOf tasks) (overdueTasksOf tasks now) now))
      t 3600000 now (by decide)
    have hfirst : generateCriticalTasksReport tasks (RemoteResult.ok t) c0 now
        = (jsTrim t, c0.set (generateHash (reportPrompt (criticalTasksOf tasks)
            (overdueTasksOf tasks now) now)) t (some 3600000) now) := by
      unfold generateCriticalTasksReport
      rw [if_neg hne, callGeminiAPI_ok_miss _ 3600000 now _ t c0 habsent]
    have hget : ((c0.set (generateHash (reportPrompt (criticalTasksOf tasks)
          (overdueTasksOf tasks now) now)) t (some 3600000) now).get
        (generateHash (reportPrompt (criticalTasksOf tasks) (overdueTasksOf tasks now) now))
        now).1 = some t := by
      unfold CacheManager.get
      rw [hkey]
      dsimp only
      have hlt : ¬ (now + 3600000 < now) := by omega
      rw [if_neg hlt]
    refine ⟨by rw [hfirst], ?_⟩
    rw [hfirst]
    unfold generateCriticalTasksReport
    rw [if_neg hne, callGeminiAPI_cache_hit _ 3600000 now _ remote2 _ t hget ht]

/-- C8 witness: each conjunct at a concrete input — suggestions for
`"upd"` with response `["a"]`, a description, a prediction returning `A`,
a prioritization over the C6 tasks with an unparsable response, and the
report with a successful remote body `"Great report"`. -/
theorem feature_cache_idempotence_witness :
    (generateTitleSuggestions "upd"
        (some (generateTitleSuggestions "upd" none (Except.ok "[\"a\"]")).1)
        (Except.error ())).1
      = (generateTitleSuggestions "upd" none (Except.ok "[\"a\"]")).1
    ∧ (generateTaskDescription "T" "do it"
        (some (cleanDescription "A fine description.")) (Except.error ())).1
      = some (cleanDescription "A fine description.")
    ∧ (predictNextCategory [⟨"1", none, some "A", 10⟩] none (some "A")
        (fun _ => Except.error ())).1 = some "A"
    ∧ (generateTaskPrioritization c6Tasks
        (some (generateTaskPrioritization c6Tasks none (Except.ok "no json here")
          1000 (fun _ => "d")).1) (Except.error ()) 1000 (fun _ => "d")).1
      = (generateTaskPrioritization c6Tasks none (Except.ok "no json here")
          1000 (fun _ => "d")).1
    ∧ (generateCriticalTasksReport c8Tasks RemoteResult.networkError
        ((generateCriticalTasksReport c8Tasks (RemoteResult.ok "Great report")
          (mkCacheManager String 3600000) 1000).2) 1000).1
      = jsTrim "Great report" := by
  refine ⟨?_, ?_, ?_, ?_, ?_⟩
  · exact (feature_cache_idempotence.1 "upd" "[\"a\"]" (Except.error ()) (by decide)).2
  · exact (feature_cache_idempotence.2.1 "T" "do it" "A fine description."
      (Except.error ()) (by decide) (by decide)).2.2
  · exact (feature_cache_idempotence.2.2.1 [⟨"1", none, some "A", 10⟩] none
      (fun _ => Except.error ()) (fun _ => Except.error ()) "A" (by decide)).2.2
  · exact (feature_cache_idempotence.2.2.2.1 c6Tasks "no json here" 1000
      (fun _ => "d") (Except.error ()) (by decide) (by decide)).2
  · exact (feature_cache_idempotence.2.2.2.2 c8Tasks "Great report"
      (mkCacheManager String 3600000) 1000 RemoteResult.networkError
      (by decide) (by decide) (by decide)).2
